import Mathlib

/-!
Shallow embedding of the Deep4Cast core (deep4cast/models.py and
deep4cast/validators.py) together with proofs about the behaviour of the
embedded code.

Modelling conventions:
* Python floats are idealized as rationals (`ℚ`); Python ints are `ℤ` or `ℕ`.
* Python dictionaries with string keys are insertion-ordered association
  lists; `dset` replaces the value of an existing key in place, as CPython
  dict assignment does.
* Fallible Python operations are embedded in `Except PyError`; the
  constructors of `PyError` name the exception the source raises at the
  corresponding place.
* The external collaborators (the keras layer catalog, the metrics module
  and the model runtime, spec §6) enter as explicit parameters: a `Catalog`
  mapping layer names to the argument lists `getargspec` would report, a
  metrics registry mapping loss names to loss functions, and a forecaster
  factory mapping parameters and fitted training data to a predict function.
-/

-- Batteries marks the arithmetic on `Rat` irreducible for the elaborator;
-- re-allow unfolding so that concrete witnesses evaluate by `decide`/`rfl`.
unseal Rat.mul Rat.inv Rat.add Rat.sub

namespace Deep4Cast

/-- Python exceptions raised on the embedded code paths. -/
inductive PyError where
  | attributeError (name : String)
  | keyError (key : String)
  | typeError
  | zeroDivisionError
  | valueError
deriving DecidableEq, Repr

/-- Values stored in Python keyword-argument dictionaries. -/
inductive PVal where
  | int (z : ℤ)
  | rat (q : ℚ)
  | str (s : String)
  | bool (b : Bool)
deriving DecidableEq, Repr

/-- A Python dict with string keys, as an insertion-ordered association list. -/
abbrev PDict := List (String × PVal)

/-- Dictionary lookup (`d[k]` on the success path / `k in d`). -/
def dget {α : Type} : List (String × α) → String → Option α
  | [], _ => none
  | (k1, v) :: rest, k => if k1 = k then some v else dget rest k

/-- Dictionary assignment `d[k] = v`: replaces in place if the key exists,
otherwise appends, as CPython dicts do. -/
def dset {α : Type} : List (String × α) → String → α → List (String × α)
  | [], k, v => [(k, v)]
  | (k1, v1) :: rest, k, v =>
    if k1 = k then (k, v) :: rest else (k1, v1) :: dset rest k v

/-- Dictionary lookup `d[k]` raising `KeyError` when the key is absent. -/
def dlook {α : Type} (d : List (String × α)) (k : String) : Except PyError α :=
  match dget d k with
  | some v => Except.ok v
  | none => Except.error (PyError.keyError k)

/-- Whether an `Except` computation finished without raising. -/
def exOk {ε α : Type} : Except ε α → Bool
  | Except.ok _ => true
  | Except.error _ => false

/-- The exception an `Except` computation raised, if any. -/
def exErr {ε α : Type} : Except ε α → Option ε
  | Except.ok _ => none
  | Except.error e => some e

/-- Python list slicing `l[a:b]` (step 1): negative indices count from the
end, then both bounds are clamped to `[0, len l]`. -/
def pySlice {α : Type} (l : List α) (a b : ℤ) : List α :=
  let n : ℤ := l.length
  let a1 : ℤ := if a < 0 then max (n + a) 0 else min a n
  let b1 : ℤ := if b < 0 then max (n + b) 0 else min b n
  (l.drop a1.toNat).take (b1.toNat - a1.toNat)

/-- Python list slicing `l[a:]`. -/
def pySliceFrom {α : Type} (l : List α) (a : ℤ) : List α :=
  pySlice l a l.length

/-- Python `int(x)` on a float: truncation toward zero
(`Rat.floor` is used instead of `⌊·⌋` so that the definition evaluates by
kernel reduction; they agree, see `pyTrunc_eq_floor`). -/
def pyTrunc (q : ℚ) : ℤ := if 0 ≤ q then q.floor else -(Rat.floor (-q))

/-- Python `round(x, 2)` idealized on rationals: round `x * 100` to the
nearest integer, ties to even, and divide by 100. -/
def pyRound2 (q : ℚ) : ℚ :=
  let s : ℚ := q * 100
  let f : ℤ := s.floor
  let r : ℤ :=
    if s - (f : ℚ) = 1 / 2 then (if f % 2 = 0 then f else f + 1)
    else (s + 1 / 2).floor
  (r : ℚ) / 100

/-!  ### validators.py — TemporalCrossValidator  -/

/-- `TemporalCrossValidator._generate_folds` (validators.py lines 107-122).

`train_length = int(len(self.data) * self.train_frac)`,
`fold_length = (len(self.data) - train_length) // self.n_folds` (Python `//`
is floor division, `Int.fdiv`), then for `i in range(self.n_folds)` the pair
`(data[a : train_length+a], data[train_length+a-lookback : train_length+b])`
is yielded with `a = i*fold_length`, `b = (i+1)*fold_length`.
`n_folds = 0` raises `ZeroDivisionError` when the generator is advanced.
The generator is consumed exactly once by `evaluate`, so it is embedded as
the finite list of yielded folds. -/
def generateFolds {α : Type} (data : List α) (train_frac : ℚ) (n_folds : ℤ)
    (lookback : ℤ) : Except PyError (List (List α × List α)) :=
  if n_folds = 0 then Except.error PyError.zeroDivisionError
  else
    let train_length : ℤ := pyTrunc ((data.length : ℚ) * train_frac)
    let fold_length : ℤ := Int.fdiv ((data.length : ℤ) - train_length) n_folds
    Except.ok <| (List.range n_folds.toNat).map fun (i : ℕ) =>
      let a : ℤ := (i : ℤ) * fold_length
      let b : ℤ := ((i : ℤ) + 1) * fold_length
      (pySlice data a (train_length + a),
       pySlice data (train_length + a - lookback) (train_length + b))

/-- Aggregate statistics returned by `evaluate` (validators.py lines 94-103).
`np.std` is the square root of the recorded variance; the square root of a
rational is irrational in general, so the variance is recorded instead (it
determines the standard deviation, and equality / error claims are
unaffected). -/
structure Scores where
  loss : ℚ
  loss_var : ℚ
  loss_min : ℚ
  loss_max : ℚ
  train_loss : ℚ
  train_loss_var : ℚ
  train_loss_min : ℚ
  train_loss_max : ℚ
deriving DecidableEq, Repr

/-- `np.mean`. -/
def npMean (l : List ℚ) : ℚ := l.sum / (l.length : ℚ)

/-- `np.var` (`np.std` squared). -/
def npVar (l : List ℚ) : ℚ := npMean (l.map fun x => (x - npMean l) ^ 2)

/-- The four aggregates `(mean, variance, min, max)` of one loss list.
On an empty list `np.min` / `np.max` raise `ValueError` before the scores
dictionary is completed, so the aggregation as a whole is an error. -/
def npStats (l : List ℚ) : Except PyError (ℚ × ℚ × ℚ × ℚ) :=
  match l with
  | [] => Except.error PyError.valueError
  | x :: xs => Except.ok (npMean (x :: xs), npVar (x :: xs), xs.foldl min x, xs.foldl max x)

/-- The `TemporalCrossValidator` object (validators.py lines 30-36).
`model` is the external forecaster factory (spec §6): `model params fitted`
is the predict function of a forecaster constructed from `params` and
quietly fit on the series `fitted`. -/
structure TCValidator where
  model : PDict → List ℚ → List ℚ → List ℚ
  data : List ℚ
  train_frac : ℚ
  n_folds : ℤ
  loss : String

/-- `TemporalCrossValidator.evaluate` (validators.py lines 46-105).
`metricsMod` embeds the external metrics module: `getattr(metrics, self.loss)`
is a lookup raising `AttributeError` when the name is unknown.
Per fold: instantiate a fresh forecaster, fit on the train slice, predict on
both slices, score both predictions against the slice from index `lookback`
on, round to two decimals; afterwards aggregate the test losses and the
train losses (the test aggregates are computed first, as in the source's
scores dictionary). -/
def evaluate (v : TCValidator) (metricsMod : List (String × (List ℚ → List ℚ → ℚ)))
    (params : PDict) : Except PyError Scores :=
  match dget metricsMod v.loss with
  | none => Except.error (PyError.attributeError v.loss)
  | some lossFn =>
    match dget params "lookback" with
    | none => Except.error (PyError.keyError "lookback")
    | some (PVal.int lookback) =>
      match generateFolds v.data v.train_frac v.n_folds lookback with
      | Except.error e => Except.error e
      | Except.ok folds =>
        let losses := folds.map fun fold =>
          let predict := v.model params fold.1
          let train_predictions := predict fold.1
          let test_predictions := predict fold.2
          let train_actuals := pySliceFrom fold.1 lookback
          let test_actuals := pySliceFrom fold.2 lookback
          (pyRound2 (lossFn train_predictions train_actuals),
           pyRound2 (lossFn test_predictions test_actuals))
        let train_losses := losses.map Prod.fst
        let test_losses := losses.map Prod.snd
        match npStats test_losses, npStats train_losses with
        | Except.ok t, Except.ok tr =>
          Except.ok ⟨t.1, t.2.1, t.2.2.1, t.2.2.2, tr.1, tr.2.1, tr.2.2.1, tr.2.2.2⟩
        | Except.error e, _ => Except.error e
        | Except.ok _, Except.error e => Except.error e
    | some _ => Except.error PyError.typeError

/-- `evaluate` with the state of the validator object made explicit: the
source assigns to no attribute of `self` (validators.py lines 46-105 contain
no write to `self`), so the object after the call is the object before it.
This is the faithful state-passing form used for the idempotence claim. -/
def evaluateSt (v : TCValidator) (metricsMod : List (String × (List ℚ → List ℚ → ℚ)))
    (params : PDict) : Except PyError (Scores × TCValidator) :=
  (evaluate v metricsMod params).map fun s => (s, v)

/-!  ### models.py — LayeredTimeSeriesModel (chain form)  -/

/-- The external keras layer catalog (spec §6): for each layer-type name the
argument list that `getattr(keras.layers, name)` + `getargspec` yields.
A name missing from the catalog makes `getattr` raise `AttributeError`. -/
abbrev Catalog := List (String × List String)

/-- A realized layer of the chain compiler's result.  `layer name params sh`
is `layer_cls(**params)` (with `input_shape=sh` when `sh` is given);
`lambdaDropout rate` is the `keras.layers.core.Lambda` wrapping
`K.dropout(x, level=rate)` (models.py lines 88-89). -/
inductive ChainLayer where
  | layer (name : String) (params : PDict) (input_shape : Option (ℕ × ℕ))
  | lambdaDropout (rate : ℚ)
deriving DecidableEq, Repr

/-- The parameter-dict mutation performed for the chain entry at position
`k` of `n` (models.py lines 65-71): `params['kernel_initializer']` is set
when the layer accepts it, and `params['return_sequences'] = True` when
accepted and `k < n - 1`.  These assignments mutate the caller's dict. -/
def chainMut (rndInit : String) (n k : ℕ) (args : List String) (params : PDict) : PDict :=
  let p1 := if "kernel_initializer" ∈ args then
    dset params "kernel_initializer" (PVal.str rndInit) else params
  if "return_sequences" ∈ args ∧ k < n - 1 then
    dset p1 "return_sequences" (PVal.bool true) else p1

/-- The loop of `LayeredTimeSeriesModel._build_layers` (models.py lines
47-79), processing the topology entries from position `i` on.  Returns the
constructed layers together with the topology as the caller sees it after
the call (each entry's params dict having been mutated in place). -/
def buildChainAux (C : Catalog) (rndInit : String) (shape : ℕ × ℕ) (n : ℕ) :
    ℕ → List (String × PDict) → Except PyError (List ChainLayer × List (String × PDict))
  | _, [] => Except.ok ([], [])
  | i, (name, params) :: rest =>
    match dget C name with
    | none => Except.error (PyError.attributeError name)
    | some args =>
      let p2 := chainMut rndInit n i args params
      let layer := ChainLayer.layer name p2 (if i = 0 then some shape else none)
      match buildChainAux C rndInit shape n (i + 1) rest with
      | Except.error e => Except.error e
      | Except.ok (ls, tps) => Except.ok (layer :: ls, (name, p2) :: tps)

/-- The result of chain-form compilation: the layer list handed to
`Sequential`, and the caller's topology after the call. -/
structure ChainResult where
  layers : List ChainLayer
  finalTopo : List (String × PDict)
deriving DecidableEq, Repr

/-- `LayeredTimeSeriesModel._build_layers` (models.py lines 44-92).
`topology` is the `topology` constructor argument; `None` and `[]` behave
identically under `if self._topology:` and are both embedded as `[]`.
With no topology the single output `Dense` layer receives
`{'units': input_shape[1], 'input_shape': input_shape}`; otherwise the
topology layers are built, then `Lambda(K.dropout)` and the final `Dense`
with `{'units': input_shape[1]}` are appended. -/
def buildChain (C : Catalog) (shape : ℕ × ℕ) (topology : List (String × PDict))
    (dropout_rate : ℚ) : Except PyError ChainResult :=
  match topology with
  | [] =>
    Except.ok ⟨[ChainLayer.layer "Dense" [("units", PVal.int (shape.2 : ℤ))] (some shape)], []⟩
  | t =>
    match buildChainAux C "glorot_normal" shape t.length 0 t with
    | Except.error e => Except.error e
    | Except.ok (ls, tps) =>
      Except.ok ⟨ls ++ [ChainLayer.lambdaDropout dropout_rate,
        ChainLayer.layer "Dense" [("units", PVal.int (shape.2 : ℤ))] none], tps⟩

/-- The layers of a chain compilation, `[]` when compilation raised. -/
def cLayers (x : Except PyError ChainResult) : List ChainLayer :=
  match x with
  | Except.ok r => r.layers
  | Except.error _ => []

/-- The caller's topology after a chain compilation, `[]` when it raised. -/
def cTopo (x : Except PyError ChainResult) : List (String × PDict) :=
  match x with
  | Except.ok r => r.finalTopo
  | Except.error _ => []

/-!  ### models.py — SharedLayerModel (graph form)  -/

/-- A symbolic tensor handle: the realized output of a node of the graph.
`layer name params arg` is `layer_cls(**params)(arg)`; `dropout rate arg` is
`keras.layers.Dropout(rate)(arg)` (models.py lines 169-170);
`lambdaDropout rate arg` is the `Lambda(K.dropout)` transformation
(models.py lines 177-180). -/
inductive TExpr where
  | input (shape : ℕ × ℕ)
  | layer (name : String) (params : PDict) (arg : TExpr)
  | dropout (rate : ℚ) (arg : TExpr)
  | lambdaDropout (rate : ℚ) (arg : TExpr)
deriving DecidableEq, Repr

/-- Whether a dropout transformation occurs anywhere in a handle. -/
def TExpr.hasDropout : TExpr → Bool
  | TExpr.input _ => false
  | TExpr.layer _ _ a => a.hasDropout
  | TExpr.dropout _ _ => true
  | TExpr.lambdaDropout _ _ => true

/-- The `meta` dict of a graph topology entry: `{'id', 'layer', 'parent'}`. -/
structure GMeta where
  id : String
  layer : String
  parent : String
deriving DecidableEq, Repr

/-- One graph topology entry `(meta, params)`. -/
abbrev GEntry := GMeta × PDict

/-- The parameter-dict mutation performed for a graph node (models.py lines
153-157): add `kernel_initializer` when accepted, and override `units` with
the series dimensionality when the node's id is `'output'` (the source
compares with `is`; CPython interns these short literal strings, so the
comparison behaves as string equality and is embedded as such). -/
def graphMut (dim : ℕ) (rndInit : String) (args : List String) (meta : GMeta)
    (params : PDict) : PDict :=
  let p1 := if "kernel_initializer" ∈ args then
    dset params "kernel_initializer" (PVal.str rndInit) else params
  if meta.id = "output" then dset p1 "units" (PVal.int (dim : ℤ)) else p1

/-- One iteration of the loop of `SharedLayerModel._build_layers`
(models.py lines 138-182): resolve the layer class, mutate the params dict,
then realize the node according to the uncertainty mode, recording handles
in the `layers` dict `m`.  Returns the updated dict and the entry's params
dict as the caller sees it afterwards. -/
def graphStep (C : Catalog) (dim : ℕ) (unc : Option String) (rate : ℚ)
    (m : List (String × TExpr)) (e : GEntry) :
    Except PyError (List (String × TExpr) × PDict) :=
  match dget C e.1.layer with
  | none => Except.error (PyError.attributeError e.1.layer)
  | some args =>
    let p2 := graphMut dim "glorot_normal" args e.1 e.2
    if unc = none then
      match dget m e.1.parent with
      | none => Except.error (PyError.keyError e.1.parent)
      | some pv => Except.ok (dset m e.1.id (TExpr.layer e.1.layer p2 pv), p2)
    else if unc = some "all" then
      match dget m e.1.parent with
      | none => Except.error (PyError.keyError e.1.parent)
      | some pv =>
        let lv := TExpr.layer e.1.layer p2 pv
        Except.ok (dset (dset m e.1.id lv) e.1.id (TExpr.dropout rate lv), p2)
    else if unc = some "last" ∧ ¬e.1.id = "output" then
      match dget m e.1.parent with
      | none => Except.error (PyError.keyError e.1.parent)
      | some pv => Except.ok (dset m e.1.id (TExpr.layer e.1.layer p2 pv), p2)
    else if unc = some "last" ∧ e.1.id = "output" then
      match dget m e.1.parent with
      | none => Except.error (PyError.keyError e.1.parent)
      | some pv =>
        let m1 := dset m "lambda" (TExpr.lambdaDropout rate pv)
        match dget m1 "lambda" with
        | none => Except.error (PyError.keyError "lambda")
        | some lv => Except.ok (dset m1 e.1.id (TExpr.layer e.1.layer p2 lv), p2)
    else
      -- an uncertainty value other than None / 'all' / 'last' matches no
      -- branch of the elif chain: the node is never recorded
      Except.ok (m, p2)

/-- The ids the loop records in the `layers` dict when processing entry `e`
(mirrors the branches of `graphStep`). -/
def producedIds (unc : Option String) (e : GEntry) : List String :=
  if unc = none then [e.1.id]
  else if unc = some "all" then [e.1.id]
  else if unc = some "last" ∧ ¬e.1.id = "output" then [e.1.id]
  else if unc = some "last" ∧ e.1.id = "output" then ["lambda", e.1.id]
  else []

/-- The loop of `SharedLayerModel._build_layers` over all topology entries,
threading the `layers` dict and collecting each entry's final params dict. -/
def buildGraphAux (C : Catalog) (dim : ℕ) (unc : Option String) (rate : ℚ) :
    List GEntry → List (String × TExpr) →
    Except PyError (List (String × TExpr) × List PDict)
  | [], m => Except.ok (m, [])
  | e :: rest, m =>
    match graphStep C dim unc rate m e with
    | Except.error err => Except.error err
    | Except.ok (m1, p) =>
      match buildGraphAux C dim unc rate rest m1 with
      | Except.error err => Except.error err
      | Except.ok (m2, ps) => Except.ok (m2, p :: ps)

/-- The result of graph-form compilation: the `layers` dict of recorded
handles, the caller's params dicts after the call, and the handles passed
to `Model(layers['input'], layers['output'])`. -/
structure GraphResult where
  layers : List (String × TExpr)
  finalParams : List PDict
  inputHandle : TExpr
  out : TExpr
deriving DecidableEq, Repr

/-- `SharedLayerModel._build_layers` (models.py lines 133-186) including the
constructor's handling of the `topology` argument: the default `None` makes
the `for` loop raise `TypeError` (iteration over `None`); otherwise the
`layers` dict is seeded with the input node and each entry is processed in
order, and finally `Model(layers['input'], layers['output'])` looks both
sentinel ids up, raising `KeyError` when `'output'` was never recorded. -/
def buildGraphModel (C : Catalog) (shape : ℕ × ℕ) (unc : Option String) (rate : ℚ)
    (topology : Option (List GEntry)) : Except PyError GraphResult :=
  match topology with
  | none => Except.error PyError.typeError
  | some t =>
    match buildGraphAux C shape.2 unc rate t [("input", TExpr.input shape)] with
    | Except.error e => Except.error e
    | Except.ok (m, ps) =>
      match dget m "input" with
      | none => Except.error (PyError.keyError "input")
      | some inv =>
        match dget m "output" with
        | none => Except.error (PyError.keyError "output")
        | some outv => Except.ok ⟨m, ps, inv, outv⟩

/-- The recorded handles of a graph compilation, `[]` when it raised. -/
def gLayers (x : Except PyError GraphResult) : List (String × TExpr) :=
  match x with
  | Except.ok r => r.layers
  | Except.error _ => []

/-- The output handle of a graph compilation, `none` when it raised. -/
def gOut (x : Except PyError GraphResult) : Option TExpr :=
  match x with
  | Except.ok r => some r.out
  | Except.error _ => none

/-- The caller's params dicts after a graph compilation, `[]` when it raised. -/
def gParams (x : Except PyError GraphResult) : List PDict :=
  match x with
  | Except.ok r => r.finalParams
  | Except.error _ => []

/-!  ### Concrete instances of the external collaborators, for witnesses  -/

/-- A fragment of the keras layer catalog with the accepted-argument lists
`getargspec` reports, used to instantiate witnesses (theorems quantify over
arbitrary catalogs). -/
def kerasCatalog : Catalog :=
  [("Dense", ["self", "units", "activation", "use_bias", "kernel_initializer",
      "bias_initializer", "kernel_regularizer", "bias_regularizer"]),
   ("LSTM", ["self", "units", "activation", "recurrent_activation", "use_bias",
      "kernel_initializer", "recurrent_initializer", "return_sequences",
      "return_state", "stateful"]),
   ("GRU", ["self", "units", "activation", "recurrent_activation", "use_bias",
      "kernel_initializer", "recurrent_initializer", "return_sequences"]),
   ("MaxPooling1D", ["self", "pool_size", "strides", "padding"]),
   ("Dropout", ["self", "rate", "noise_shape", "seed"]),
   ("Lambda", ["self", "function", "output_shape", "mask", "arguments"])]

/-- A two-node graph topology: a hidden LSTM node feeding the output node. -/
def demoGraphTopo : List GEntry :=
  [(⟨"h1", "LSTM", "input"⟩, [("units", PVal.int 8)]),
   (⟨"output", "Dense", "h1"⟩, [])]

/-- A graph topology whose second node's parent is the compiler-internal
handle id `'lambda'`, which is not the id of any declared node. -/
def demoLambdaTopo : List GEntry :=
  [(⟨"output", "Dense", "input"⟩, []),
   (⟨"x", "Dense", "lambda"⟩, [])]

/-- A metrics registry with a single constant loss, standing in for the
external metrics module (spec §6). -/
def demoMetrics : List (String × (List ℚ → List ℚ → ℚ)) :=
  [("mse", fun _ _ => 3 / 7)]

/-- A deterministic forecaster factory: predicts the input series as-is. -/
def demoModel : PDict → List ℚ → List ℚ → List ℚ := fun _ _ x => x

/-- The handle recorded for `h1` of `demoGraphTopo` outside mode `'all'`. -/
def demoH1 : TExpr :=
  TExpr.layer "LSTM"
    [("units", PVal.int 8), ("kernel_initializer", PVal.str "glorot_normal")]
    (TExpr.input (5, 2))

/-- The handle recorded for the output node of `demoGraphTopo` under
`uncertainty='last'`. -/
def demoOutLast : TExpr :=
  TExpr.layer "Dense"
    [("kernel_initializer", PVal.str "glorot_normal"), ("units", PVal.int 2)]
    (TExpr.lambdaDropout (1 / 10) demoH1)

/-- A small validator instance for evaluation witnesses. -/
def demoCV : TCValidator :=
  ⟨demoModel, [1, 2, 3, 4, 5, 6, 7, 8], 1 / 2, 2, "mse"⟩

/-- Forecaster parameters for evaluation witnesses. -/
def demoParams : PDict := [("lookback", PVal.int 1)]

/-- Modelled from the spec: `train_length = floor(len(data) * train_frac)`
(the claim's formula; the source computes `int(...)`, truncation). -/
def trainLengthSpec {α : Type} (data : List α) (train_frac : ℚ) : ℤ :=
  ⌊(data.length : ℚ) * train_frac⌋

/-- Modelled from the spec: `fold_length = floor((len(data) - train_length)
/ n_folds)`; floor division of integers is `Int.fdiv`. -/
def foldLengthSpec {α : Type} (data : List α) (train_frac : ℚ) (n_folds : ℤ) : ℤ :=
  Int.fdiv ((data.length : ℤ) - trainLengthSpec data train_frac) n_folds

/-- The uncertainty argument matches one of the three handled modes. -/
def TriMode (unc : Option String) : Prop :=
  unc = none ∨ unc = some "all" ∨ unc = some "last"

/-!  ### Helper lemmas on dictionaries and numerics  -/

theorem dget_dset_self {α : Type} (d : List (String × α)) (k : String) (v : α) :
    dget (dset d k v) k = some v := by
  induction d with
  | nil => simp [dget, dset]
  | cons p rest ih =>
    obtain ⟨k1, v1⟩ := p
    by_cases h : k1 = k
    · simp [dset, h, dget]
    · simp [dset, h, dget, ih]

theorem dget_dset_ne {α : Type} (d : List (String × α)) (k k1 : String) (v : α)
    (h : k1 ≠ k) : dget (dset d k v) k1 = dget d k1 := by
  have hkk : ¬k = k1 := fun hh => h hh.symm
  induction d with
  | nil => simp [dget, dset, hkk]
  | cons p rest ih =>
    obtain ⟨k2, v2⟩ := p
    by_cases h2 : k2 = k
    · subst h2
      simp [dset, dget, hkk]
    · simp only [dset, if_neg h2, dget]
      by_cases h3 : k2 = k1 <;> simp [h3, ih]

theorem mem_dset {α : Type} {d : List (String × α)} {k : String} {v : α} {p : String × α}
    (h : p ∈ dset d k v) : p = (k, v) ∨ p ∈ d := by
  induction d with
  | nil => simpa [dset] using h
  | cons q rest ih =>
    obtain ⟨k1, v1⟩ := q
    by_cases h1 : k1 = k
    · simp only [dset, if_pos h1, List.mem_cons] at h
      rcases h with h | h
      · exact Or.inl h
      · exact Or.inr (List.mem_cons_of_mem _ h)
    · simp only [dset, if_neg h1, List.mem_cons] at h
      rcases h with h | h
      · exact Or.inr (h ▸ List.mem_cons_self _ _)
      · rcases ih h with h2 | h2
        · exact Or.inl h2
        · exact Or.inr (List.mem_cons_of_mem _ h2)

theorem dget_mem {α : Type} {d : List (String × α)} {k : String} {v : α}
    (h : dget d k = some v) : (k, v) ∈ d := by
  induction d with
  | nil => simp [dget] at h
  | cons q rest ih =>
    obtain ⟨k1, v1⟩ := q
    by_cases h1 : k1 = k
    · subst h1
      simp only [dget, eq_self_iff_true, if_true, Option.some.injEq] at h
      subst h
      exact List.mem_cons_self _ _
    · simp only [dget, if_neg h1] at h
      exact List.mem_cons_of_mem _ (ih h)

theorem dset_dset_same {α : Type} (d : List (String × α)) (k : String) (v1 v2 : α) :
    dset (dset d k v1) k v2 = dset d k v2 := by
  induction d with
  | nil => simp [dset]
  | cons q rest ih =>
    obtain ⟨k1, w⟩ := q
    by_cases h1 : k1 = k
    · simp [dset, h1]
    · simp [dset, h1, ih]

theorem dget_dset_ne_none {α : Type} {d : List (String × α)} {k k1 : String} {v : α}
    (h : dget (dset d k v) k1 ≠ none) : k1 = k ∨ dget d k1 ≠ none := by
  by_cases he : k1 = k
  · exact Or.inl he
  · exact Or.inr (by rwa [dget_dset_ne d k k1 v he] at h)

theorem dget_ne_none_of_dset {α : Type} {d : List (String × α)} (k k1 : String) (v : α)
    (h : dget d k1 ≠ none) : dget (dset d k v) k1 ≠ none := by
  by_cases he : k1 = k
  · subst he
    simp [dget_dset_self]
  · rwa [dget_dset_ne d k k1 v he]

/-- `Rat.floor` is `⌊·⌋`. -/
theorem ratFloor_eq_intFloor (q : ℚ) : q.floor = ⌊q⌋ := by
  rw [Rat.floor_def', Rat.floor_def]

/-- On nonnegative rationals Python's `int(·)` is the floor. -/
theorem pyTrunc_eq_floor {q : ℚ} (h : 0 ≤ q) : pyTrunc q = ⌊q⌋ := by
  rw [pyTrunc, if_pos h, ratFloor_eq_intFloor]

/-!  ### C1: fold generation  -/

/-- C1: for every data list, nonnegative `train_frac`, positive `n_folds`
and every `lookback`, fold generation yields exactly `n_folds` folds, the
fold at index `i` being
`(data[a : train_length+a], data[train_length+a-lookback : train_length+b])`
with `a = i*fold_length`, `b = (i+1)*fold_length`,
`train_length = floor(len(data)*train_frac)` and
`fold_length = floor((len(data)-train_length)/n_folds)`. -/
theorem c1_generate_folds {α : Type} (data : List α) (train_frac : ℚ) (n_folds : ℤ)
    (lookback : ℤ) (h1 : 1 ≤ n_folds) (h2 : 0 ≤ train_frac) :
    ∃ folds, generateFolds data train_frac n_folds lookback = Except.ok folds ∧
      folds.length = n_folds.toNat ∧
      ∀ i : ℕ, i < n_folds.toNat →
        folds[i]? = some
          (pySlice data ((i : ℤ) * foldLengthSpec data train_frac n_folds)
            (trainLengthSpec data train_frac
              + (i : ℤ) * foldLengthSpec data train_frac n_folds),
           pySlice data
            (trainLengthSpec data train_frac
              + (i : ℤ) * foldLengthSpec data train_frac n_folds - lookback)
            (trainLengthSpec data train_frac
              + ((i : ℤ) + 1) * foldLengthSpec data train_frac n_folds)) := by
  have hne : ¬n_folds = 0 := by omega
  have htl : pyTrunc ((data.length : ℚ) * train_frac) = trainLengthSpec data train_frac := by
    rw [trainLengthSpec, pyTrunc_eq_floor (mul_nonneg (by positivity) h2)]
  refine ⟨_, by rw [generateFolds, if_neg hne], ?_, ?_⟩
  · simp
  · intro i hi
    rw [List.getElem?_map, List.getElem?_range hi, Option.map_some']
    simp only [foldLengthSpec]
    rw [← htl]

/-- C1 witness: the claim's scenario, 100 observations, `train_frac = 1/2`,
`n_folds = 5`, `lookback = 3`; additionally fold 0 is
`(data[0:50], data[47:60])` and fold 4 is `(data[40:90], data[87:100])`
evaluated concretely. -/
theorem c1_generate_folds_witness :
    (∃ folds, generateFolds (List.range 100) (1 / 2 : ℚ) 5 3 = Except.ok folds ∧
      folds.length = (5 : ℤ).toNat ∧
      ∀ i : ℕ, i < (5 : ℤ).toNat →
        folds[i]? = some
          (pySlice (List.range 100) ((i : ℤ) * foldLengthSpec (List.range 100) (1 / 2) 5)
            (trainLengthSpec (List.range 100) (1 / 2)
              + (i : ℤ) * foldLengthSpec (List.range 100) (1 / 2) 5),
           pySlice (List.range 100)
            (trainLengthSpec (List.range 100) (1 / 2)
              + (i : ℤ) * foldLengthSpec (List.range 100) (1 / 2) 5 - 3)
            (trainLengthSpec (List.range 100) (1 / 2)
              + ((i : ℤ) + 1) * foldLengthSpec (List.range 100) (1 / 2) 5))) ∧
    (generateFolds (List.range 100) (1 / 2 : ℚ) 5 3).toOption.bind (fun fs => fs[0]?) =
      some ((List.range 100).take 50, ((List.range 100).drop 47).take 13) ∧
    (generateFolds (List.range 100) (1 / 2 : ℚ) 5 3).toOption.bind (fun fs => fs[4]?) =
      some (((List.range 100).drop 40).take 50, ((List.range 100).drop 87).take 13) :=
  ⟨c1_generate_folds (List.range 100) (1 / 2) 5 3 (by decide) (by decide),
   by decide, by decide⟩

/-!  ### Chain-form compilation lemmas  -/

theorem buildChainAux_nil (C : Catalog) (rndInit : String) (shape : ℕ × ℕ) (n i : ℕ) :
    buildChainAux C rndInit shape n i [] = Except.ok ([], []) := rfl

theorem buildChainAux_cons (C : Catalog) (rndInit : String) (shape : ℕ × ℕ) (n i : ℕ)
    (nm0 : String) (p0 : PDict) (rest : List (String × PDict)) :
    buildChainAux C rndInit shape n i ((nm0, p0) :: rest) =
      match dget C nm0 with
      | none => Except.error (PyError.attributeError nm0)
      | some args =>
        match buildChainAux C rndInit shape n (i + 1) rest with
        | Except.error e => Except.error e
        | Except.ok (ls, tps) =>
          Except.ok (ChainLayer.layer nm0 (chainMut rndInit n i args p0)
              (if i = 0 then some shape else none) :: ls,
            (nm0, chainMut rndInit n i args p0) :: tps) := rfl

theorem buildChainAux_length {C : Catalog} {rndInit : String} {shape : ℕ × ℕ} {n : ℕ} :
    ∀ (es : List (String × PDict)) (i : ℕ) (ls : List ChainLayer)
      (tps : List (String × PDict)),
      buildChainAux C rndInit shape n i es = Except.ok (ls, tps) →
      ls.length = es.length ∧ tps.length = es.length := by
  intro es
  induction es with
  | nil =>
    intro i ls tps hb
    rw [buildChainAux_nil] at hb
    simp only [Except.ok.injEq, Prod.mk.injEq] at hb
    obtain ⟨h1, h2⟩ := hb
    simp [← h1, ← h2]
  | cons e rest ih =>
    obtain ⟨nm0, p0⟩ := e
    intro i ls tps hb
    rw [buildChainAux_cons] at hb
    cases hC : dget C nm0 with
    | none => simp [hC] at hb
    | some args =>
      cases hrec : buildChainAux C rndInit shape n (i + 1) rest with
      | error e1 => simp [hC, hrec] at hb
      | ok pr =>
        obtain ⟨ls1, tps1⟩ := pr
        simp only [hC, hrec, Except.ok.injEq, Prod.mk.injEq] at hb
        obtain ⟨hls, htps⟩ := hb
        obtain ⟨ih1, ih2⟩ := ih (i + 1) ls1 tps1 hrec
        simp [← hls, ← htps, ih1, ih2]

theorem buildChainAux_get {C : Catalog} {rndInit : String} {shape : ℕ × ℕ} {n : ℕ} :
    ∀ (es : List (String × PDict)) (i : ℕ) (ls : List ChainLayer)
      (tps : List (String × PDict)),
      buildChainAux C rndInit shape n i es = Except.ok (ls, tps) →
      ∀ (j : ℕ) (nm : String) (p : PDict), es[j]? = some (nm, p) →
      ∀ args, dget C nm = some args →
      ls[j]? = some (ChainLayer.layer nm (chainMut rndInit n (i + j) args p)
        (if i + j = 0 then some shape else none)) ∧
      tps[j]? = some (nm, chainMut rndInit n (i + j) args p) := by
  intro es
  induction es with
  | nil =>
    intro i ls tps _ j nm p hj
    simp at hj
  | cons e rest ih =>
    obtain ⟨nm0, p0⟩ := e
    intro i ls tps hb j nm p hj args hargs
    rw [buildChainAux_cons] at hb
    cases hC : dget C nm0 with
    | none => simp [hC] at hb
    | some args0 =>
      cases hrec : buildChainAux C rndInit shape n (i + 1) rest with
      | error e1 => simp [hC, hrec] at hb
      | ok pr =>
        obtain ⟨ls1, tps1⟩ := pr
        simp only [hC, hrec, Except.ok.injEq, Prod.mk.injEq] at hb
        obtain ⟨hls, htps⟩ := hb
        cases j with
        | zero =>
          simp only [List.getElem?_cons_zero, Option.some.injEq, Prod.mk.injEq] at hj
          obtain ⟨hnm, hp⟩ := hj
          subst hnm
          subst hp
          rw [hC] at hargs
          cases hargs
          simp [← hls, ← htps]
        | succ j1 =>
          simp only [List.getElem?_cons_succ] at hj
          have harith : i + 1 + j1 = i + (j1 + 1) := by omega
          have hih := ih (i + 1) ls1 tps1 hrec j1 nm p hj args hargs
          rw [harith] at hih
          simp [← hls, ← htps, hih.1, hih.2]

theorem buildChainAux_unknown {C : Catalog} {rndInit : String} {shape : ℕ × ℕ} {n : ℕ} :
    ∀ (es : List (String × PDict)) (i : ℕ) (nm : String) (p : PDict),
      (nm, p) ∈ es → dget C nm = none →
      exOk (buildChainAux C rndInit shape n i es) = false := by
  intro es
  induction es with
  | nil =>
    intro i nm p hmem
    simp at hmem
  | cons e rest ih =>
    obtain ⟨nm0, p0⟩ := e
    intro i nm p hmem hC
    rcases List.mem_cons.1 hmem with heq | hmem1
    · obtain ⟨h1, _⟩ := Prod.mk.injEq .. ▸ heq
      subst h1
      rw [buildChainAux_cons]
      simp [hC, exOk]
    · rw [buildChainAux_cons]
      cases hC0 : dget C nm0 with
      | none => simp [exOk]
      | some args0 =>
        have hih := ih (i + 1) nm p hmem1 hC
        cases hrec : buildChainAux C rndInit shape n (i + 1) rest with
        | error e1 => simp [exOk]
        | ok pr => rw [hrec, exOk] at hih; simp at hih

/-- Inversion for the output-wrapping match of `buildChain`. -/
theorem chainWrap_ok {x : Except PyError (List ChainLayer × List (String × PDict))}
    {g : List ChainLayer → List ChainLayer} {r : ChainResult}
    (h : (match x with
          | Except.error e1 => Except.error e1
          | Except.ok (ls, tps) => Except.ok (ChainResult.mk (g ls) tps)) = Except.ok r) :
    ∃ ls tps, x = Except.ok (ls, tps) ∧ r.layers = g ls ∧ r.finalTopo = tps := by
  cases x with
  | error e1 => simp at h
  | ok pr =>
    obtain ⟨ls, tps⟩ := pr
    simp only [Except.ok.injEq] at h
    exact ⟨ls, tps, rfl, by rw [← h], by rw [← h]⟩

/-- From a successful chain compilation on a nonempty topology, the
underlying loop result. -/
theorem buildChain_cons_ok {C : Catalog} {shape : ℕ × ℕ} {rate : ℚ}
    {e : String × PDict} {rest : List (String × PDict)} {r : ChainResult}
    (h : buildChain C shape (e :: rest) rate = Except.ok r) :
    ∃ ls tps, buildChainAux C "glorot_normal" shape (e :: rest).length 0 (e :: rest) =
        Except.ok (ls, tps) ∧
      r.layers = ls ++ [ChainLayer.lambdaDropout rate,
        ChainLayer.layer "Dense" [("units", PVal.int (shape.2 : ℤ))] none] ∧
      r.finalTopo = tps :=
  @chainWrap_ok (buildChainAux C "glorot_normal" shape (e :: rest).length 0 (e :: rest))
    (fun ls => ls ++ [ChainLayer.lambdaDropout rate,
      ChainLayer.layer "Dense" [("units", PVal.int (shape.2 : ℤ))] none]) r h

/-!  ### C4: the chain always ends in the output projection layer  -/

/-- C4: every successful chain compilation ends in exactly one final `Dense`
projection with `units = input_shape[1]`; with no topology the compiled
graph is that single projection layer alone (then carrying the input
shape); with a topology the `Lambda` dropout using the drop rate sits
immediately before the final projection. -/
theorem c4_chain_output_layer (C : Catalog) (shape : ℕ × ℕ) (topo : List (String × PDict))
    (rate : ℚ) (h : exOk (buildChain C shape topo rate) = true) :
    (topo = [] → cLayers (buildChain C shape topo rate) =
      [ChainLayer.layer "Dense" [("units", PVal.int (shape.2 : ℤ))] (some shape)]) ∧
    (topo ≠ [] → ∃ body, cLayers (buildChain C shape topo rate) =
      body ++ [ChainLayer.lambdaDropout rate,
        ChainLayer.layer "Dense" [("units", PVal.int (shape.2 : ℤ))] none] ∧
      body.length = topo.length) := by
  cases htopo : topo with
  | nil =>
    refine ⟨fun _ => ?_, fun hne => absurd rfl hne⟩
    simp [buildChain, cLayers]
  | cons e rest =>
    refine ⟨fun heq => by simp at heq, fun _ => ?_⟩
    subst htopo
    cases hb : buildChain C shape (e :: rest) rate with
    | error e1 => rw [hb] at h; simp [exOk] at h
    | ok r =>
      obtain ⟨ls, tps, hrec, hlay, _⟩ := buildChain_cons_ok hb
      refine ⟨ls, ?_, (buildChainAux_length (e :: rest) 0 ls tps hrec).1⟩
      simp only [cLayers]
      exact hlay

/-- C4 witness: an empty and a one-layer topology compiled concretely. -/
theorem c4_chain_output_layer_witness :
    (cLayers (buildChain kerasCatalog (5, 2) [] (1 / 10)) =
      [ChainLayer.layer "Dense" [("units", PVal.int 2)] (some (5, 2))]) ∧
    (∃ body, cLayers (buildChain kerasCatalog (5, 2) [("LSTM", [])] (1 / 10)) =
      body ++ [ChainLayer.lambdaDropout (1 / 10),
        ChainLayer.layer "Dense" [("units", PVal.int 2)] none] ∧
      body.length = 1) :=
  ⟨(c4_chain_output_layer kerasCatalog (5, 2) [] (1 / 10) (by decide)).1 rfl,
   (c4_chain_output_layer kerasCatalog (5, 2) [("LSTM", [])] (1 / 10) (by decide)).2
     (by decide)⟩

/-!  ### C5: the sequence-return flag  -/

/-- C5: in a chain topology of length `n`, a layer at position `j < n-1`
whose type accepts `return_sequences` receives it forced to `True`, and the
layer at position `n-1` never has it forced — its `return_sequences`
parameter is exactly whatever the caller supplied, whether or not its type
accepts the flag. -/
theorem c5_return_sequences (C : Catalog) (shape : ℕ × ℕ) (topo : List (String × PDict))
    (rate : ℚ) (j : ℕ) (nm : String) (p : PDict) (args : List String)
    (h : exOk (buildChain C shape topo rate) = true)
    (hj : topo[j]? = some (nm, p)) (hargs : dget C nm = some args) :
    (("return_sequences" ∈ args ∧ j < topo.length - 1) →
      ∃ pf sh, (cLayers (buildChain C shape topo rate))[j]? =
          some (ChainLayer.layer nm pf sh) ∧
        dget pf "return_sequences" = some (PVal.bool true)) ∧
    (j = topo.length - 1 →
      ∃ pf sh, (cLayers (buildChain C shape topo rate))[j]? =
          some (ChainLayer.layer nm pf sh) ∧
        dget pf "return_sequences" = dget p "return_sequences") := by
  cases htopo : topo with
  | nil => rw [htopo] at hj; simp at hj
  | cons e rest =>
    subst htopo
    have hjlt : j < (e :: rest).length := by
      by_contra hge
      rw [List.getElem?_eq_none (by omega)] at hj
      exact Option.noConfusion hj
    cases hb : buildChain C shape (e :: rest) rate with
    | error e1 => rw [hb] at h; simp [exOk] at h
    | ok r =>
      obtain ⟨ls, tps, hrec, hlay, _⟩ := buildChain_cons_ok hb
      have hget := buildChainAux_get (e :: rest) 0 ls tps hrec j nm p hj args hargs
      have hlen := buildChainAux_length (e :: rest) 0 ls tps hrec
      have hjls : j < ls.length := by rw [hlen.1]; exact hjlt
      have hcl : (cLayers (Except.ok r : Except PyError ChainResult))[j]? =
          some (ChainLayer.layer nm (chainMut "glorot_normal" (e :: rest).length j args p)
            (if j = 0 then some shape else none)) := by
        simp only [cLayers, hlay]
        rw [List.getElem?_append, if_pos hjls]
        simpa using hget.1
      constructor
      · intro hc
        refine ⟨_, _, hcl, ?_⟩
        rw [chainMut]
        rw [if_pos ⟨hc.1, by have := hc.2; simpa using this⟩]
        exact dget_dset_self _ _ _
      · intro hjn
        refine ⟨_, _, hcl, ?_⟩
        rw [chainMut]
        rw [if_neg (by rw [hjn]; simp)]
        by_cases hki : "kernel_initializer" ∈ args
        · rw [if_pos hki, dget_dset_ne _ _ _ _ (by decide)]
        · rw [if_neg hki]

/-- C5 witness: a two-layer LSTM chain; the first layer gets
`return_sequences = True`, the last layer's dict is untouched although LSTM
accepts the flag. -/
theorem c5_return_sequences_witness :
    (∃ pf sh,
      (cLayers (buildChain kerasCatalog (5, 2) [("LSTM", []), ("LSTM", [])] (1 / 10)))[0]? =
        some (ChainLayer.layer "LSTM" pf sh) ∧
      dget pf "return_sequences" = some (PVal.bool true)) ∧
    (∃ pf sh,
      (cLayers (buildChain kerasCatalog (5, 2) [("LSTM", []), ("LSTM", [])] (1 / 10)))[1]? =
        some (ChainLayer.layer "LSTM" pf sh) ∧
      dget pf "return_sequences" = dget ([] : PDict) "return_sequences") :=
  ⟨(c5_return_sequences kerasCatalog (5, 2) [("LSTM", []), ("LSTM", [])] (1 / 10) 0 "LSTM"
      [] (dget kerasCatalog "LSTM").iget (by decide) (by decide) (by decide)).1
      ⟨by decide, by decide⟩,
   (c5_return_sequences kerasCatalog (5, 2) [("LSTM", []), ("LSTM", [])] (1 / 10) 1 "LSTM"
      [] (dget kerasCatalog "LSTM").iget (by decide) (by decide) (by decide)).2
      (by decide)⟩

/-!  ### Graph-form compilation lemmas  -/

theorem buildGraphAux_nil (C : Catalog) (dim : ℕ) (unc : Option String) (rate : ℚ)
    (m : List (String × TExpr)) :
    buildGraphAux C dim unc rate [] m = Except.ok (m, []) := rfl

theorem buildGraphAux_cons (C : Catalog) (dim : ℕ) (unc : Option String) (rate : ℚ)
    (e : GEntry) (rest : List GEntry) (m : List (String × TExpr)) :
    buildGraphAux C dim unc rate (e :: rest) m =
      match graphStep C dim unc rate m e with
      | Except.error err => Except.error err
      | Except.ok (m1, p) =>
        match buildGraphAux C dim unc rate rest m1 with
        | Except.error err => Except.error err
        | Except.ok (m2, ps) => Except.ok (m2, p :: ps) := rfl

/-- Full inversion of one loop iteration of the graph compiler. -/
theorem graphStep_ok_inv {C : Catalog} {dim : ℕ} {unc : Option String} {rate : ℚ}
    {m m1 : List (String × TExpr)} {e : GEntry} {p : PDict}
    (h : graphStep C dim unc rate m e = Except.ok (m1, p)) :
    ∃ args, dget C e.1.layer = some args ∧
      p = graphMut dim "glorot_normal" args e.1 e.2 ∧
      ((unc = none ∧ ∃ pv, dget m e.1.parent = some pv ∧
          m1 = dset m e.1.id (TExpr.layer e.1.layer p pv)) ∨
       (unc = some "all" ∧ ∃ pv, dget m e.1.parent = some pv ∧
          m1 = dset (dset m e.1.id (TExpr.layer e.1.layer p pv)) e.1.id
            (TExpr.dropout rate (TExpr.layer e.1.layer p pv))) ∨
       (unc = some "last" ∧ ¬e.1.id = "output" ∧ ∃ pv, dget m e.1.parent = some pv ∧
          m1 = dset m e.1.id (TExpr.layer e.1.layer p pv)) ∨
       (unc = some "last" ∧ e.1.id = "output" ∧ ∃ pv, dget m e.1.parent = some pv ∧
          m1 = dset (dset m "lambda" (TExpr.lambdaDropout rate pv)) e.1.id
            (TExpr.layer e.1.layer p (TExpr.lambdaDropout rate pv))) ∨
       (¬TriMode unc ∧ m1 = m)) := by
  simp only [graphStep] at h
  cases hC : dget C e.1.layer with
  | none => simp [hC] at h
  | some args =>
    simp only [hC] at h
    refine ⟨args, rfl, ?_⟩
    by_cases h0 : unc = none
    · rw [if_pos h0] at h
      cases hP : dget m e.1.parent with
      | none => simp [hP] at h
      | some pv =>
        simp only [hP, Except.ok.injEq, Prod.mk.injEq] at h
        exact ⟨h.2.symm, Or.inl ⟨h0, pv, rfl, by rw [← h.1, ← h.2]⟩⟩
    · rw [if_neg h0] at h
      by_cases h1 : unc = some "all"
      · rw [if_pos h1] at h
        cases hP : dget m e.1.parent with
        | none => simp [hP] at h
        | some pv =>
          simp only [hP, Except.ok.injEq, Prod.mk.injEq] at h
          exact ⟨h.2.symm, Or.inr (Or.inl ⟨h1, pv, rfl, by rw [← h.1, ← h.2]⟩)⟩
      · rw [if_neg h1] at h
        by_cases h2 : unc = some "last"
        · by_cases hid : e.1.id = "output"
          · rw [if_neg (fun hc => hc.2 hid), if_pos ⟨h2, hid⟩] at h
            cases hP : dget m e.1.parent with
            | none => simp [hP] at h
            | some pv =>
              simp only [hP, dget_dset_self, Except.ok.injEq, Prod.mk.injEq] at h
              exact ⟨h.2.symm,
                Or.inr (Or.inr (Or.inr (Or.inl ⟨h2, hid, pv, rfl, by rw [← h.1, ← h.2]⟩)))⟩
          · rw [if_pos ⟨h2, hid⟩] at h
            cases hP : dget m e.1.parent with
            | none => simp [hP] at h
            | some pv =>
              simp only [hP, Except.ok.injEq, Prod.mk.injEq] at h
              exact ⟨h.2.symm,
                Or.inr (Or.inr (Or.inl ⟨h2, hid, pv, rfl, by rw [← h.1, ← h.2]⟩))⟩
        · rw [if_neg (fun hc : unc = some "last" ∧ ¬e.1.id = "output" => h2 hc.1),
            if_neg (fun hc : unc = some "last" ∧ e.1.id = "output" => h2 hc.1)] at h
          simp only [Except.ok.injEq, Prod.mk.injEq] at h
          refine ⟨h.2.symm, Or.inr (Or.inr (Or.inr (Or.inr ⟨?_, h.1.symm⟩)))⟩
          intro hc
          rcases hc with hc | hc | hc
          · exact h0 hc
          · exact h1 hc
          · exact h2 hc

/-- The keys recorded by one loop iteration are the produced ids. -/
theorem graphStep_keys {C : Catalog} {dim : ℕ} {unc : Option String} {rate : ℚ}
    {m m1 : List (String × TExpr)} {e : GEntry} {p : PDict}
    (h : graphStep C dim unc rate m e = Except.ok (m1, p)) :
    ∀ k, dget m1 k ≠ none → k ∈ producedIds unc e ∨ dget m k ≠ none := by
  obtain ⟨args, _, _, hbr⟩ := graphStep_ok_inv h
  intro k hk
  rcases hbr with ⟨hu, pv, _, hm⟩ | ⟨hu, pv, _, hm⟩ | ⟨hu, hid, pv, _, hm⟩ |
    ⟨hu, hid, pv, _, hm⟩ | ⟨hu, hm⟩
  · subst hm
    rcases dget_dset_ne_none hk with hke | hke
    · left; simp [producedIds, hu, hke]
    · exact Or.inr hke
  · subst hm
    rcases dget_dset_ne_none hk with hke | hke
    · left; simp [producedIds, hu, hke]
    · rcases dget_dset_ne_none hke with hke1 | hke1
      · left; simp [producedIds, hu, hke1]
      · exact Or.inr hke1
  · subst hm
    rcases dget_dset_ne_none hk with hke | hke
    · left; simp [producedIds, hu, hid, hke]
    · exact Or.inr hke
  · subst hm
    rcases dget_dset_ne_none hk with hke | hke
    · left; simp [producedIds, hu, hid, hke]
    · rcases dget_dset_ne_none hke with hke1 | hke1
      · left; simp [producedIds, hu, hid, hke1]
      · exact Or.inr hke1
  · subst hm
    exact Or.inr hk

/-- In the three handled modes a successful iteration resolved its parent. -/
theorem graphStep_parent {C : Catalog} {dim : ℕ} {unc : Option String} {rate : ℚ}
    {m m1 : List (String × TExpr)} {e : GEntry} {p : PDict}
    (hu : TriMode unc) (h : graphStep C dim unc rate m e = Except.ok (m1, p)) :
    dget m e.1.parent ≠ none := by
  obtain ⟨args, _, _, hbr⟩ := graphStep_ok_inv h
  rcases hbr with ⟨_, pv, hP, _⟩ | ⟨_, pv, hP, _⟩ | ⟨_, _, pv, hP, _⟩ |
    ⟨_, _, pv, hP, _⟩ | ⟨hnu, _⟩
  · simp [hP]
  · simp [hP]
  · simp [hP]
  · simp [hP]
  · exact absurd hu hnu

/-- Outside the three handled modes the layers dict is never touched. -/
theorem graphStep_skip {C : Catalog} {dim : ℕ} {unc : Option String} {rate : ℚ}
    {m m1 : List (String × TExpr)} {e : GEntry} {p : PDict}
    (hu : ¬TriMode unc) (h : graphStep C dim unc rate m e = Except.ok (m1, p)) :
    m1 = m := by
  obtain ⟨args, _, _, hbr⟩ := graphStep_ok_inv h
  rcases hbr with ⟨hc, _⟩ | ⟨hc, _⟩ | ⟨hc, _, _⟩ | ⟨hc, _, _⟩ | ⟨_, hm⟩
  · exact absurd (Or.inl hc) hu
  · exact absurd (Or.inr (Or.inl hc)) hu
  · exact absurd (Or.inr (Or.inr hc)) hu
  · exact absurd (Or.inr (Or.inr hc)) hu
  · exact hm

/-- Invariant preservation through the whole loop. -/
theorem buildGraphAux_inv {C : Catalog} {dim : ℕ} {unc : Option String} {rate : ℚ}
    (P : List (String × TExpr) → Prop)
    (hstep : ∀ m e m1 p, graphStep C dim unc rate m e = Except.ok (m1, p) → P m → P m1) :
    ∀ (es : List GEntry) (m m2 : List (String × TExpr)) (ps : List PDict),
      buildGraphAux C dim unc rate es m = Except.ok (m2, ps) → P m → P m2 := by
  intro es
  induction es with
  | nil =>
    intro m m2 ps hb hP
    rw [buildGraphAux_nil] at hb
    simp only [Except.ok.injEq, Prod.mk.injEq] at hb
    exact hb.1 ▸ hP
  | cons e rest ih =>
    intro m m2 ps hb hP
    rw [buildGraphAux_cons] at hb
    cases hS : graphStep C dim unc rate m e with
    | error err => simp [hS] at hb
    | ok pr =>
      obtain ⟨m1, p⟩ := pr
      cases hrec : buildGraphAux C dim unc rate rest m1 with
      | error err => simp [hS, hrec] at hb
      | ok pr2 =>
        obtain ⟨m2x, psx⟩ := pr2
        simp only [hS, hrec, Except.ok.injEq, Prod.mk.injEq] at hb
        exact hb.1 ▸ ih m1 m2x psx hrec (hstep m e m1 p hS hP)

/-- Keys of the final layers dict: either present initially or produced. -/
theorem buildGraphAux_keys {C : Catalog} {dim : ℕ} {unc : Option String} {rate : ℚ} :
    ∀ (es : List GEntry) (m m2 : List (String × TExpr)) (ps : List PDict),
      buildGraphAux C dim unc rate es m = Except.ok (m2, ps) →
      ∀ k, dget m2 k ≠ none →
        k ∈ es.flatMap (producedIds unc) ∨ dget m k ≠ none := by
  intro es
  induction es with
  | nil =>
    intro m m2 ps hb k hk
    rw [buildGraphAux_nil] at hb
    simp only [Except.ok.injEq, Prod.mk.injEq] at hb
    exact Or.inr (hb.1 ▸ hk)
  | cons e rest ih =>
    intro m m2 ps hb k hk
    rw [buildGraphAux_cons] at hb
    cases hS : graphStep C dim unc rate m e with
    | error err => simp [hS] at hb
    | ok pr =>
      obtain ⟨m1, p⟩ := pr
      cases hrec : buildGraphAux C dim unc rate rest m1 with
      | error err => simp [hS, hrec] at hb
      | ok pr2 =>
        obtain ⟨m2x, psx⟩ := pr2
        simp only [hS, hrec, Except.ok.injEq, Prod.mk.injEq] at hb
        rcases ih m1 m2x psx hrec k (hb.1 ▸ hk) with hin | hin
        · left
          rw [List.flatMap_cons]
          exact List.mem_append_right _ hin
        · rcases graphStep_keys hS k hin with hin1 | hin1
          · left
            rw [List.flatMap_cons]
            exact List.mem_append_left _ hin1
          · exact Or.inr hin1

/-- Outside the three handled modes the loop never records anything. -/
theorem buildGraphAux_skip {C : Catalog} {dim : ℕ} {unc : Option String} {rate : ℚ}
    (hu : ¬TriMode unc) :
    ∀ (es : List GEntry) (m m2 : List (String × TExpr)) (ps : List PDict),
      buildGraphAux C dim unc rate es m = Except.ok (m2, ps) → m2 = m := by
  intro es m m2 ps hb
  exact buildGraphAux_inv (fun mx => mx = m)
    (fun mx e m1 p hS hP => by
      subst hP
      exact graphStep_skip hu hS) es m m2 ps hb rfl

/-- Every processed entry resolved its parent among the ids available when
it was reached: the initial dict's keys or an id produced by an earlier
entry. -/
theorem buildGraphAux_parent {C : Catalog} {dim : ℕ} {unc : Option String} {rate : ℚ}
    (hu : TriMode unc) :
    ∀ (es : List GEntry) (m m2 : List (String × TExpr)) (ps : List PDict),
      buildGraphAux C dim unc rate es m = Except.ok (m2, ps) →
      ∀ (j : ℕ) (e1 : GEntry), es[j]? = some e1 →
        e1.1.parent ∈ (es.take j).flatMap (producedIds unc) ∨
          dget m e1.1.parent ≠ none := by
  intro es
  induction es with
  | nil =>
    intro m m2 ps hb j e1 hj
    simp at hj
  | cons e rest ih =>
    intro m m2 ps hb j e1 hj
    rw [buildGraphAux_cons] at hb
    cases hS : graphStep C dim unc rate m e with
    | error err => simp [hS] at hb
    | ok pr =>
      obtain ⟨m1, p⟩ := pr
      cases hrec : buildGraphAux C dim unc rate rest m1 with
      | error err => simp [hS, hrec] at hb
      | ok pr2 =>
        obtain ⟨m2x, psx⟩ := pr2
        cases j with
        | zero =>
          simp only [List.getElem?_cons_zero, Option.some.injEq] at hj
          subst hj
          exact Or.inr (graphStep_parent hu hS)
        | succ j1 =>
          simp only [List.getElem?_cons_succ] at hj
          rcases ih m1 m2x psx hrec j1 e1 hj with hin | hin
          · left
            rw [List.take_succ_cons, List.flatMap_cons]
            exact List.mem_append_right _ hin
          · rcases graphStep_keys hS e1.1.parent hin with hin1 | hin1
            · left
              rw [List.take_succ_cons, List.flatMap_cons]
              exact List.mem_append_left _ hin1
            · exact Or.inr hin1

/-- The final params dicts recorded per entry. -/
theorem buildGraphAux_params {C : Catalog} {dim : ℕ} {unc : Option String} {rate : ℚ} :
    ∀ (es : List GEntry) (m m2 : List (String × TExpr)) (ps : List PDict),
      buildGraphAux C dim unc rate es m = Except.ok (m2, ps) →
      ∀ (j : ℕ) (e1 : GEntry), es[j]? = some e1 →
      ∀ args, dget C e1.1.layer = some args →
        ps[j]? = some (graphMut dim "glorot_normal" args e1.1 e1.2) := by
  intro es
  induction es with
  | nil =>
    intro m m2 ps hb j e1 hj
    simp at hj
  | cons e rest ih =>
    intro m m2 ps hb j e1 hj args hargs
    rw [buildGraphAux_cons] at hb
    cases hS : graphStep C dim unc rate m e with
    | error err => simp [hS] at hb
    | ok pr =>
      obtain ⟨m1, p⟩ := pr
      cases hrec : buildGraphAux C dim unc rate rest m1 with
      | error err => simp [hS, hrec] at hb
      | ok pr2 =>
        obtain ⟨m2x, psx⟩ := pr2
        simp only [hS, hrec, Except.ok.injEq, Prod.mk.injEq] at hb
        cases j with
        | zero =>
          simp only [List.getElem?_cons_zero, Option.some.injEq] at hj
          subst hj
          obtain ⟨args0, hC0, hp, _⟩ := graphStep_ok_inv hS
          rw [hC0] at hargs
          cases hargs
          rw [← hb.2]
          simp [hp]
        | succ j1 =>
          simp only [List.getElem?_cons_succ] at hj
          rw [← hb.2]
          simpa using ih m1 m2x psx hrec j1 e1 hj args hargs

/-- An unknown layer type anywhere in the topology fails the loop. -/
theorem buildGraphAux_unknown {C : Catalog} {dim : ℕ} {unc : Option String} {rate : ℚ} :
    ∀ (es : List GEntry) (m : List (String × TExpr)) (e1 : GEntry),
      e1 ∈ es → dget C e1.1.layer = none →
      exOk (buildGraphAux C dim unc rate es m) = false := by
  intro es
  induction es with
  | nil =>
    intro m e1 hmem
    simp at hmem
  | cons e rest ih =>
    intro m e1 hmem hC
    rw [buildGraphAux_cons]
    rcases List.mem_cons.1 hmem with heq | hmem1
    · subst heq
      cases hS : graphStep C dim unc rate m e1 with
      | error err => simp [exOk]
      | ok pr =>
        obtain ⟨m1, p⟩ := pr
        obtain ⟨args, hC1, _⟩ := graphStep_ok_inv hS
        rw [hC1] at hC
        exact Option.noConfusion hC
    · cases hS : graphStep C dim unc rate m e with
      | error err => simp [exOk]
      | ok pr =>
        obtain ⟨m1, p⟩ := pr
        have hih := ih m1 e1 hmem1 hC
        cases hrec : buildGraphAux C dim unc rate rest m1 with
        | error err => simp [exOk, hrec]
        | ok pr2 => rw [hrec] at hih; simp [exOk] at hih

/-- Inversion for the final wrapping of `buildGraphModel`. -/
theorem graphWrap_ok {x : Except PyError (List (String × TExpr) × List PDict)}
    {r : GraphResult}
    (h : (match x with
          | Except.error e => Except.error e
          | Except.ok (m, ps) =>
            match dget m "input" with
            | none => Except.error (PyError.keyError "input")
            | some inv =>
              match dget m "output" with
              | none => Except.error (PyError.keyError "output")
              | some outv => Except.ok (GraphResult.mk m ps inv outv)) = Except.ok r) :
    ∃ m ps, x = Except.ok (m, ps) ∧ r.layers = m ∧ r.finalParams = ps ∧
      dget m "input" = some r.inputHandle ∧ dget m "output" = some r.out := by
  cases x with
  | error e => simp at h
  | ok pr =>
    obtain ⟨m, ps⟩ := pr
    cases hin : dget m "input" with
    | none => simp [hin] at h
    | some inv =>
      cases hout : dget m "output" with
      | none => simp [hin, hout] at h
      | some outv =>
        simp only [hin, hout, Except.ok.injEq] at h
        exact ⟨m, ps, rfl, by rw [← h], by rw [← h], by rw [← h, hin], by rw [← h, hout]⟩

/-- From a successful graph compilation, the loop result and the sentinel
lookups. -/
theorem buildGraphModel_some_ok {C : Catalog} {shape : ℕ × ℕ} {unc : Option String}
    {rate : ℚ} {t : List GEntry} {r : GraphResult}
    (h : buildGraphModel C shape unc rate (some t) = Except.ok r) :
    ∃ m ps, buildGraphAux C shape.2 unc rate t [("input", TExpr.input shape)] =
        Except.ok (m, ps) ∧
      r.layers = m ∧ r.finalParams = ps ∧
      dget m "input" = some r.inputHandle ∧ dget m "output" = some r.out :=
  @graphWrap_ok (buildGraphAux C shape.2 unc rate t [("input", TExpr.input shape)]) r h

/-!  ### C2: the three uncertainty modes  -/

/-- Mode `None`: a step never introduces a dropout transformation. -/
theorem graphStep_none_nodrop {C : Catalog} {dim : ℕ} {rate : ℚ}
    {m m1 : List (String × TExpr)} {e : GEntry} {p : PDict}
    (hS : graphStep C dim none rate m e = Except.ok (m1, p))
    (hP : ∀ q ∈ m, (q.2 : TExpr).hasDropout = false) :
    ∀ q ∈ m1, (q.2 : TExpr).hasDropout = false := by
  obtain ⟨args, _, _, hbr⟩ := graphStep_ok_inv hS
  rcases hbr with ⟨_, pv, hPv, hm⟩ | ⟨hc, _⟩ | ⟨hc, _, _⟩ | ⟨hc, _, _⟩ | ⟨hc, _⟩
  · subst hm
    intro q hq
    rcases mem_dset hq with hq1 | hq1
    · rw [hq1]
      simpa [TExpr.hasDropout] using hP (e.1.parent, pv) (dget_mem hPv)
    · exact hP q hq1
  · exact Option.noConfusion hc
  · exact Option.noConfusion hc
  · exact Option.noConfusion hc
  · exact absurd (Or.inl rfl) hc

/-- Mode `'all'`: every recorded handle other than the input is a dropout
of a raw layer output. -/
theorem graphStep_all_drop {C : Catalog} {dim : ℕ} {rate : ℚ}
    {m m1 : List (String × TExpr)} {e : GEntry} {p : PDict}
    (hS : graphStep C dim (some "all") rate m e = Except.ok (m1, p))
    (hP : ∀ q ∈ m, q.1 = "input" ∨
      ∃ nm ps a, (q.2 : TExpr) = TExpr.dropout rate (TExpr.layer nm ps a)) :
    ∀ q ∈ m1, q.1 = "input" ∨
      ∃ nm ps a, (q.2 : TExpr) = TExpr.dropout rate (TExpr.layer nm ps a) := by
  obtain ⟨args, _, _, hbr⟩ := graphStep_ok_inv hS
  rcases hbr with ⟨hc, _⟩ | ⟨_, pv, hPv, hm⟩ | ⟨hc, _, _⟩ | ⟨hc, _, _⟩ | ⟨hc, _⟩
  · exact Option.noConfusion hc
  · subst hm
    rw [dset_dset_same]
    intro q hq
    rcases mem_dset hq with hq1 | hq1
    · rw [hq1]
      exact Or.inr ⟨e.1.layer, p, pv, rfl⟩
    · exact hP q hq1
  · exact absurd hc (by simp)
  · exact absurd hc (by simp)
  · exact absurd (Or.inr (Or.inl rfl)) hc

/-- Mode `'last'`: the `'output'` key holds a layer applied to a lambda
dropout, every other key except the sentinels holds a plain layer handle. -/
theorem graphStep_last_shape {C : Catalog} {dim : ℕ} {rate : ℚ}
    {m m1 : List (String × TExpr)} {e : GEntry} {p : PDict}
    (hS : graphStep C dim (some "last") rate m e = Except.ok (m1, p))
    (hP : ∀ q ∈ m, q.1 = "input" ∨ q.1 = "lambda" ∨
      (q.1 = "output" ∧ ∃ nm ps a,
        (q.2 : TExpr) = TExpr.layer nm ps (TExpr.lambdaDropout rate a)) ∨
      (¬q.1 = "output" ∧ ∃ nm ps a, (q.2 : TExpr) = TExpr.layer nm ps a)) :
    ∀ q ∈ m1, q.1 = "input" ∨ q.1 = "lambda" ∨
      (q.1 = "output" ∧ ∃ nm ps a,
        (q.2 : TExpr) = TExpr.layer nm ps (TExpr.lambdaDropout rate a)) ∨
      (¬q.1 = "output" ∧ ∃ nm ps a, (q.2 : TExpr) = TExpr.layer nm ps a) := by
  obtain ⟨args, _, _, hbr⟩ := graphStep_ok_inv hS
  rcases hbr with ⟨hc, _⟩ | ⟨hc, _⟩ | ⟨_, hid, pv, hPv, hm⟩ | ⟨_, hid, pv, hPv, hm⟩ | ⟨hc, _⟩
  · exact Option.noConfusion hc
  · exact absurd hc (by simp)
  · subst hm
    intro q hq
    rcases mem_dset hq with hq1 | hq1
    · rw [hq1]
      exact Or.inr (Or.inr (Or.inr ⟨hid, e.1.layer, p, pv, rfl⟩))
    · exact hP q hq1
  · subst hm
    intro q hq
    rcases mem_dset hq with hq1 | hq1
    · rw [hq1]
      exact Or.inr (Or.inr (Or.inl ⟨hid, e.1.layer, p, pv, rfl⟩))
    · rcases mem_dset hq1 with hq2 | hq2
      · rw [hq2]
        exact Or.inr (Or.inl rfl)
      · exact hP q hq2
  · exact absurd (Or.inr (Or.inr rfl)) hc

/-- C2: with `uncertainty=None` the compiled graph contains no dropout
transformation anywhere; with `uncertainty='all'` every recorded non-input
handle is a dropout transformation of its raw layer output; with
`uncertainty='last'` the output node is realized from a lambda-dropout of
its parent handle (not the raw parent handle) while every node other than
the sentinels `input`/`lambda`/`output` is realized directly as a plain
layer application with no dropout. -/
theorem c2_uncertainty_modes (C : Catalog) (shape : ℕ × ℕ) (rate : ℚ)
    (topt : Option (List GEntry)) :
    (∀ p ∈ gLayers (buildGraphModel C shape none rate topt),
      (p.2 : TExpr).hasDropout = false) ∧
    (∀ p ∈ gLayers (buildGraphModel C shape (some "all") rate topt),
      ¬p.1 = "input" →
      ∃ nm ps a, (p.2 : TExpr) = TExpr.dropout rate (TExpr.layer nm ps a)) ∧
    (∀ v, gOut (buildGraphModel C shape (some "last") rate topt) = some v →
      ∃ nm ps a, v = TExpr.layer nm ps (TExpr.lambdaDropout rate a)) ∧
    (∀ p ∈ gLayers (buildGraphModel C shape (some "last") rate topt),
      ¬p.1 = "input" → ¬p.1 = "lambda" → ¬p.1 = "output" →
      ∃ nm ps a, (p.2 : TExpr) = TExpr.layer nm ps a) := by
  refine ⟨?_, ?_, ?_, ?_⟩
  · cases topt with
    | none => intro p hp; simp [buildGraphModel, gLayers] at hp
    | some t =>
      cases hb : buildGraphModel C shape none rate (some t) with
      | error err => intro p hp; simp [gLayers] at hp
      | ok r =>
        obtain ⟨m, ps, hrec, hm, _, _, _⟩ := buildGraphModel_some_ok hb
        intro p hp
        simp only [gLayers] at hp
        rw [hm] at hp
        exact buildGraphAux_inv (fun mx => ∀ q ∈ mx, (q.2 : TExpr).hasDropout = false)
          (fun mx e m1 p1 hS hP => graphStep_none_nodrop hS hP) t _ m ps hrec
          (by intro q hq; rcases List.mem_singleton.1 hq with rfl; rfl) p hp
  · cases topt with
    | none => intro p hp; simp [buildGraphModel, gLayers] at hp
    | some t =>
      cases hb : buildGraphModel C shape (some "all") rate (some t) with
      | error err => intro p hp; simp [gLayers] at hp
      | ok r =>
        obtain ⟨m, ps, hrec, hm, _, _, _⟩ := buildGraphModel_some_ok hb
        intro p hp hni
        simp only [gLayers] at hp
        rw [hm] at hp
        have hinv := buildGraphAux_inv (fun mx => ∀ q ∈ mx, q.1 = "input" ∨
            ∃ nm ps a, (q.2 : TExpr) = TExpr.dropout rate (TExpr.layer nm ps a))
          (fun mx e m1 p1 hS hP => graphStep_all_drop hS hP) t _ m ps hrec
          (by intro q hq; rcases List.mem_singleton.1 hq with rfl; exact Or.inl rfl) p hp
        rcases hinv with hi | hi
        · exact absurd hi hni
        · exact hi
  · cases topt with
    | none => intro v hv; simp [buildGraphModel, gOut] at hv
    | some t =>
      cases hb : buildGraphModel C shape (some "last") rate (some t) with
      | error err => intro v hv; simp [gOut] at hv
      | ok r =>
        obtain ⟨m, ps, hrec, hm, _, _, hout⟩ := buildGraphModel_some_ok hb
        intro v hv
        simp only [gOut, Option.some.injEq] at hv
        subst hv
        have hinv := buildGraphAux_inv (fun mx => ∀ q ∈ mx, q.1 = "input" ∨
            q.1 = "lambda" ∨
            (q.1 = "output" ∧ ∃ nm ps a,
              (q.2 : TExpr) = TExpr.layer nm ps (TExpr.lambdaDropout rate a)) ∨
            (¬q.1 = "output" ∧ ∃ nm ps a, (q.2 : TExpr) = TExpr.layer nm ps a))
          (fun mx e m1 p1 hS hP => graphStep_last_shape hS hP) t _ m ps hrec
          (by intro q hq; rcases List.mem_singleton.1 hq with rfl; exact Or.inl rfl)
          ("output", r.out) (dget_mem hout)
        rcases hinv with hi | hi | ⟨_, hi⟩ | ⟨hi, _⟩
        · exact absurd hi (show ("output" : String) ≠ "input" by decide)
        · exact absurd hi (show ("output" : String) ≠ "lambda" by decide)
        · exact hi
        · exact absurd rfl hi
  · cases topt with
    | none => intro p hp; simp [buildGraphModel, gLayers] at hp
    | some t =>
      cases hb : buildGraphModel C shape (some "last") rate (some t) with
      | error err => intro p hp; simp [gLayers] at hp
      | ok r =>
        obtain ⟨m, ps, hrec, hm, _, _, _⟩ := buildGraphModel_some_ok hb
        intro p hp hni hnl hno
        simp only [gLayers] at hp
        rw [hm] at hp
        have hinv := buildGraphAux_inv (fun mx => ∀ q ∈ mx, q.1 = "input" ∨
            q.1 = "lambda" ∨
            (q.1 = "output" ∧ ∃ nm ps a,
              (q.2 : TExpr) = TExpr.layer nm ps (TExpr.lambdaDropout rate a)) ∨
            (¬q.1 = "output" ∧ ∃ nm ps a, (q.2 : TExpr) = TExpr.layer nm ps a))
          (fun mx e m1 p1 hS hP => graphStep_last_shape hS hP) t _ m ps hrec
          (by intro q hq; rcases List.mem_singleton.1 hq with rfl; exact Or.inl rfl) p hp
        rcases hinv with hi | hi | ⟨hi, _⟩ | ⟨_, hi⟩
        · exact absurd hi hni
        · exact absurd hi hnl
        · exact absurd hi hno
        · exact hi

/-- C2 witness: the two-node demo topology compiled under the three modes,
with the resulting handles evaluated concretely. -/
theorem c2_uncertainty_modes_witness :
    demoH1.hasDropout = false ∧
    (∃ nm ps a, TExpr.dropout (1 / 10) demoH1 =
      TExpr.dropout (1 / 10) (TExpr.layer nm ps a)) ∧
    (∃ nm ps a, demoOutLast = TExpr.layer nm ps (TExpr.lambdaDropout (1 / 10) a)) ∧
    (∃ nm ps a, demoH1 = TExpr.layer nm ps a) :=
  ⟨(c2_uncertainty_modes kerasCatalog (5, 2) (1 / 10) (some demoGraphTopo)).1
      ("h1", demoH1) (by decide),
   (c2_uncertainty_modes kerasCatalog (5, 2) (1 / 10) (some demoGraphTopo)).2.1
      ("h1", TExpr.dropout (1 / 10) demoH1) (by decide) (by decide),
   (c2_uncertainty_modes kerasCatalog (5, 2) (1 / 10) (some demoGraphTopo)).2.2.1
      demoOutLast (by decide),
   (c2_uncertainty_modes kerasCatalog (5, 2) (1 / 10) (some demoGraphTopo)).2.2.2
      ("h1", demoH1) (by decide) (by decide) (by decide) (by decide)⟩

/-!  ### C6: unknown layer types  -/

/-- C6: a topology entry whose layer-type identifier is unknown to the
layer catalog makes compilation fail (the `getattr` lookup raises before
the offending layer is realized and no compiled model exists), in both
compiler forms. -/
theorem c6_unknown_layer (C : Catalog) (shape : ℕ × ℕ) (rate : ℚ) :
    (∀ (topo : List (String × PDict)) (nm : String) (p : PDict),
      (nm, p) ∈ topo → dget C nm = none →
      exOk (buildChain C shape topo rate) = false) ∧
    (∀ (unc : Option String) (t : List GEntry) (e : GEntry),
      e ∈ t → dget C e.1.layer = none →
      exOk (buildGraphModel C shape unc rate (some t)) = false) := by
  constructor
  · intro topo nm p hmem hC
    cases htopo : topo with
    | nil => rw [htopo] at hmem; simp at hmem
    | cons e rest =>
      rw [htopo] at hmem
      have haux := @buildChainAux_unknown C "glorot_normal" shape (e :: rest).length
        (e :: rest) 0 nm p hmem hC
      cases hrec : buildChainAux C "glorot_normal" shape (e :: rest).length 0 (e :: rest) with
      | error err =>
        have hb : buildChain C shape (e :: rest) rate = Except.error err := by
          have hunf : buildChain C shape (e :: rest) rate =
              match buildChainAux C "glorot_normal" shape (e :: rest).length 0
                  (e :: rest) with
              | Except.error e1 => Except.error e1
              | Except.ok (ls, tps) =>
                Except.ok ⟨ls ++ [ChainLayer.lambdaDropout rate,
                  ChainLayer.layer "Dense" [("units", PVal.int (shape.2 : ℤ))] none],
                  tps⟩ := rfl
          rw [hunf, hrec]
        rw [hb]
        rfl
      | ok pr => rw [hrec] at haux; simp [exOk] at haux
  · intro unc t e hmem hC
    have haux := @buildGraphAux_unknown C shape.2 unc rate
      t [("input", TExpr.input shape)] e hmem hC
    cases hrec : buildGraphAux C shape.2 unc rate t [("input", TExpr.input shape)] with
    | error err =>
      have hb : buildGraphModel C shape unc rate (some t) = Except.error err := by
        have hunf : buildGraphModel C shape unc rate (some t) =
            match buildGraphAux C shape.2 unc rate t [("input", TExpr.input shape)] with
            | Except.error e1 => Except.error e1
            | Except.ok (m, ps) =>
              match dget m "input" with
              | none => Except.error (PyError.keyError "input")
              | some inv =>
                match dget m "output" with
                | none => Except.error (PyError.keyError "output")
                | some outv => Except.ok ⟨m, ps, inv, outv⟩ := rfl
        rw [hunf, hrec]
      rw [hb]
      rfl
    | ok pr => rw [hrec] at haux; simp [exOk] at haux

/-- C6 witness: the `"NoSuchLayer"` scenario in both forms. -/
theorem c6_unknown_layer_witness :
    exOk (buildChain kerasCatalog (5, 2) [("Dense", []), ("NoSuchLayer", [])] (1 / 10))
        = false ∧
    exOk (buildGraphModel kerasCatalog (5, 2) (some "last") (1 / 10)
        (some [(⟨"output", "NoSuchLayer", "input"⟩, [])])) = false :=
  ⟨(c6_unknown_layer kerasCatalog (5, 2) (1 / 10)).1
      [("Dense", []), ("NoSuchLayer", [])] "NoSuchLayer" [] (by decide) (by decide),
   (c6_unknown_layer kerasCatalog (5, 2) (1 / 10)).2 (some "last")
      [(⟨"output", "NoSuchLayer", "input"⟩, [])] (⟨"output", "NoSuchLayer", "input"⟩, [])
      (by decide) (by decide)⟩

/-!  ### C10: the graph form requires a topology with an output node  -/

/-- A key lookup in a one-entry dict with a different key. -/
theorem dget_single_ne {α : Type} {k k1 : String} {v : α} (h : ¬k = k1) :
    dget [(k, v)] k1 = none := by
  simp [dget, h]

/-- Only an entry whose id is `'output'` can produce the `'output'` key. -/
theorem producedIds_output {unc : Option String} {e : GEntry}
    (h : "output" ∈ producedIds unc e) : e.1.id = "output" := by
  rw [producedIds] at h
  by_cases h0 : unc = none
  · rw [if_pos h0] at h
    exact (List.mem_singleton.1 h).symm
  · rw [if_neg h0] at h
    by_cases h1 : unc = some "all"
    · rw [if_pos h1] at h
      exact (List.mem_singleton.1 h).symm
    · rw [if_neg h1] at h
      by_cases h2 : unc = some "last" ∧ ¬e.1.id = "output"
      · rw [if_pos h2] at h
        exact (List.mem_singleton.1 h).symm
      · rw [if_neg h2] at h
        by_cases h3 : unc = some "last" ∧ e.1.id = "output"
        · exact h3.2
        · rw [if_neg h3] at h
          simp at h

/-- C10: constructing the graph form with the default `topology=None` always
fails (iterating `None` raises `TypeError`), and every successful graph
compilation was given a non-`None` topology containing at least one entry
whose id is `'output'`. -/
theorem c10_output_topology_required (C : Catalog) (shape : ℕ × ℕ) (unc : Option String)
    (rate : ℚ) (topt : Option (List GEntry)) :
    buildGraphModel C shape unc rate none = Except.error PyError.typeError ∧
    (exOk (buildGraphModel C shape unc rate topt) = true →
      ∃ t, topt = some t ∧ ∃ e ∈ t, e.1.id = "output") := by
  refine ⟨rfl, ?_⟩
  intro h
  cases topt with
  | none => rw [show buildGraphModel C shape unc rate none =
      Except.error PyError.typeError from rfl] at h; simp [exOk] at h
  | some t =>
    refine ⟨t, rfl, ?_⟩
    cases hb : buildGraphModel C shape unc rate (some t) with
    | error err => rw [hb] at h; simp [exOk] at h
    | ok r =>
      obtain ⟨m, ps, hrec, _, _, _, hout⟩ := buildGraphModel_some_ok hb
      have hne : dget m "output" ≠ none := by simp [hout]
      rcases buildGraphAux_keys t _ m ps hrec "output" hne with hfm | hinit
      · obtain ⟨e, he, hpe⟩ := List.mem_flatMap.1 hfm
        exact ⟨e, he, producedIds_output hpe⟩
      · exact absurd (dget_single_ne (by decide)) hinit

/-- C10 witness: the demo topology under `uncertainty=None`. -/
theorem c10_output_topology_required_witness :
    ∃ t, (some demoGraphTopo : Option (List GEntry)) = some t ∧
      ∃ e ∈ t, e.1.id = "output" :=
  (c10_output_topology_required kerasCatalog (5, 2) none (1 / 10)
    (some demoGraphTopo)).2 (by decide)

/-!  ### C7: malformed graph topologies  -/

/-- C7 counterexample: in `demoLambdaTopo` the second node's parent id
`'lambda'` is neither the input sentinel nor the id of any (earlier or
later) declared node, yet graph compilation under `uncertainty='last'`
succeeds: the compiler's internally recorded lambda handle is referenceable. -/
theorem c7_counterexample :
    (demoLambdaTopo[1]?.map fun e => e.1.parent) = some "lambda" ∧
    ¬("lambda" : String) = "input" ∧
    (∀ e ∈ demoLambdaTopo, ¬e.1.id = "lambda") ∧
    exOk (buildGraphModel kerasCatalog (5, 2) (some "last") (1 / 10)
      (some demoLambdaTopo)) = true := by
  refine ⟨by decide, by decide, by decide, by decide⟩

/-- C7 as amended: if the output id is never produced, or some node's
parent id is neither the input sentinel, nor an id recorded by an earlier
entry — including, under `uncertainty='last'`, the internal `'lambda'`
handle recorded when the output node is realized — then graph compilation
fails. -/
theorem c7_amended_malformed_graph (C : Catalog) (shape : ℕ × ℕ) (unc : Option String)
    (rate : ℚ) (t : List GEntry)
    (h : (∀ e ∈ t, ¬e.1.id = "output") ∨
      (∃ (j : ℕ) (e1 : GEntry), t[j]? = some e1 ∧
        ¬e1.1.parent ∈ "input" :: (t.take j).flatMap (producedIds unc))) :
    exOk (buildGraphModel C shape unc rate (some t)) = false := by
  cases hx : buildGraphModel C shape unc rate (some t) with
  | error err => rfl
  | ok r =>
    exfalso
    obtain ⟨m, ps, hrec, _, _, _, hout⟩ := buildGraphModel_some_ok hx
    have hne : dget m "output" ≠ none := by simp [hout]
    by_cases hu : TriMode unc
    · rcases h with hno | ⟨j, e1, hj, hpar⟩
      · rcases buildGraphAux_keys t _ m ps hrec "output" hne with hfm | hinit
        · obtain ⟨e, he, hpe⟩ := List.mem_flatMap.1 hfm
          exact hno e he (producedIds_output hpe)
        · exact absurd (dget_single_ne (by decide)) hinit
      · rcases buildGraphAux_parent hu t _ m ps hrec j e1 hj with hfm | hinit
        · exact hpar (List.mem_cons_of_mem _ hfm)
        · by_cases hpin : e1.1.parent = "input"
          · exact hpar (hpin ▸ List.mem_cons_self _ _)
          · exact absurd (dget_single_ne fun hh => hpin hh.symm) hinit
    · have hskip := buildGraphAux_skip hu t _ m ps hrec
      rw [hskip] at hne
      exact absurd (dget_single_ne (by decide)) hne

/-- C7 amended witness: a topology with no output entry, and one with a
dangling parent, both fail under every mode of the demo setup. -/
theorem c7_amended_malformed_graph_witness :
    exOk (buildGraphModel kerasCatalog (5, 2) none (1 / 10)
      (some [(⟨"h1", "Dense", "input"⟩, [])])) = false ∧
    exOk (buildGraphModel kerasCatalog (5, 2) none (1 / 10)
      (some [(⟨"output", "Dense", "nowhere"⟩, [])])) = false :=
  ⟨c7_amended_malformed_graph kerasCatalog (5, 2) none (1 / 10)
      [(⟨"h1", "Dense", "input"⟩, [])] (Or.inl (by decide)),
   c7_amended_malformed_graph kerasCatalog (5, 2) none (1 / 10)
      [(⟨"output", "Dense", "nowhere"⟩, [])]
      (Or.inr ⟨0, (⟨"output", "Dense", "nowhere"⟩, []), by decide, by decide⟩)⟩

/-!  ### C8: the caller-supplied parameter dicts are mutated in place  -/

/-- C8 counterexample: compiling the one-entry chain topology
`[("Dense", {})]` succeeds and leaves the caller's topology with the
initializer scheme written into the original (previously empty) params
dict — the mapping is extended in place, not left unchanged. -/
theorem c8_counterexample :
    exOk (buildChain kerasCatalog (5, 2) [("Dense", [])] (1 / 10)) = true ∧
    ¬cTopo (buildChain kerasCatalog (5, 2) [("Dense", [])] (1 / 10)) =
      [("Dense", [])] := by
  refine ⟨by decide, by decide⟩

/-- C8 as amended: both compiler forms mutate the caller's per-layer
parameter mappings in place rather than copying them: after compilation,
the mapping of any entry whose layer type accepts the initializer
parameter contains the fixed initializer scheme. -/
theorem c8_amended_params_mutated :
    (∀ (C : Catalog) (shape : ℕ × ℕ) (topo : List (String × PDict)) (rate : ℚ)
      (j : ℕ) (nm : String) (p : PDict) (args : List String),
      exOk (buildChain C shape topo rate) = true →
      topo[j]? = some (nm, p) → dget C nm = some args →
      "kernel_initializer" ∈ args →
      ∃ pf, (cTopo (buildChain C shape topo rate))[j]? = some (nm, pf) ∧
        dget pf "kernel_initializer" = some (PVal.str "glorot_normal")) ∧
    (∀ (C : Catalog) (shape : ℕ × ℕ) (unc : Option String) (rate : ℚ)
      (t : List GEntry) (j : ℕ) (e1 : GEntry) (args : List String),
      exOk (buildGraphModel C shape unc rate (some t)) = true →
      t[j]? = some e1 → dget C e1.1.layer = some args →
      "kernel_initializer" ∈ args →
      ∃ pf, (gParams (buildGraphModel C shape unc rate (some t)))[j]? = some pf ∧
        dget pf "kernel_initializer" = some (PVal.str "glorot_normal")) := by
  constructor
  · intro C shape topo rate j nm p args h hj hargs hki
    cases htopo : topo with
    | nil => rw [htopo] at hj; simp at hj
    | cons e rest =>
      subst htopo
      cases hb : buildChain C shape (e :: rest) rate with
      | error e1 => rw [hb] at h; simp [exOk] at h
      | ok r =>
        obtain ⟨ls, tps, hrec, _, htp⟩ := buildChain_cons_ok hb
        have hget := buildChainAux_get (e :: rest) 0 ls tps hrec j nm p hj args hargs
        refine ⟨chainMut "glorot_normal" (e :: rest).length j args p, ?_, ?_⟩
        · simp only [cTopo, htp]
          simpa using hget.2
        · rw [chainMut]
          by_cases hrs : "return_sequences" ∈ args ∧ j < (e :: rest).length - 1
          · rw [if_pos hrs, if_pos hki,
              dget_dset_ne _ _ _ _ (by decide), dget_dset_self]
          · rw [if_neg hrs, if_pos hki, dget_dset_self]
  · intro C shape unc rate t j e1 args h hj hargs hki
    cases hb : buildGraphModel C shape unc rate (some t) with
    | error err => rw [hb] at h; simp [exOk] at h
    | ok r =>
      obtain ⟨m, ps, hrec, _, hps, _, _⟩ := buildGraphModel_some_ok hb
      have hget := buildGraphAux_params t _ m ps hrec j e1 hj args hargs
      refine ⟨graphMut shape.2 "glorot_normal" args e1.1 e1.2, ?_, ?_⟩
      · simp only [gParams, hps]
        exact hget
      · rw [graphMut]
        by_cases hout : e1.1.id = "output"
        · rw [if_pos hout, if_pos hki,
            dget_dset_ne _ _ _ _ (by decide), dget_dset_self]
        · rw [if_neg hout, if_pos hki, dget_dset_self]

/-- C8 amended witness: the one-entry chain and the demo graph topology. -/
theorem c8_amended_params_mutated_witness :
    (∃ pf, (cTopo (buildChain kerasCatalog (5, 2) [("Dense", [])] (1 / 10)))[0]? =
        some ("Dense", pf) ∧
      dget pf "kernel_initializer" = some (PVal.str "glorot_normal")) ∧
    (∃ pf, (gParams (buildGraphModel kerasCatalog (5, 2) none (1 / 10)
          (some demoGraphTopo)))[0]? = some pf ∧
      dget pf "kernel_initializer" = some (PVal.str "glorot_normal")) :=
  ⟨(c8_amended_params_mutated).1 kerasCatalog (5, 2) [("Dense", [])] (1 / 10) 0
      "Dense" [] (dget kerasCatalog "Dense").iget (by decide) (by decide) (by decide)
      (by decide),
   (c8_amended_params_mutated).2 kerasCatalog (5, 2) none (1 / 10) demoGraphTopo 0
      (⟨"h1", "LSTM", "input"⟩, [("units", PVal.int 8)])
      (dget kerasCatalog "LSTM").iget (by decide) (by decide) (by decide) (by decide)⟩

/-!  ### C3: the engine performs no parameter validation  -/

theorem generateFolds_ok_of_ne {α : Type} (data : List α) (frac : ℚ) (n lb : ℤ)
    (hn : ¬n = 0) :
    ∃ folds, generateFolds data frac n lb = Except.ok folds ∧
      folds.length = n.toNat := by
  rw [generateFolds, if_neg hn]
  exact ⟨_, rfl, by simp⟩

/-- C3 counterexample: `evaluate` returns aggregate scores without raising
anything although `train_frac = 2` lies outside `(0,1)` (first run), and
although `lookback = 50` exceeds every fold's test window so that all
scoring segments are empty (second run) — no `ConfigurationError` or
`InsufficientDataError` is signalled. -/
theorem c3_counterexample :
    (1 : ℚ) < 2 ∧
    exOk (evaluate ⟨demoModel, [1, 2, 3, 4, 5, 6, 7, 8], 2, 2, "mse"⟩ demoMetrics
      [("lookback", PVal.int 0)]) = true ∧
    (∀ fold ∈ (generateFolds ([1, 2, 3, 4, 5, 6, 7, 8] : List ℚ) (1 / 2) 2 50).toOption.getD [],
      pySliceFrom fold.2 50 = []) ∧
    exOk (evaluate ⟨demoModel, [1, 2, 3, 4, 5, 6, 7, 8], 1 / 2, 2, "mse"⟩ demoMetrics
      [("lookback", PVal.int 50)]) = true := by
  refine ⟨by decide, by decide, by decide, by decide⟩

/-- C3 as amended: `evaluate` validates nothing.  Whenever the loss name
resolves and the params carry an integer lookback, it returns scores for
every positive `n_folds`, every `train_frac` (inside or outside `(0,1)`)
and every `lookback` (even one exceeding the test windows, silently scoring
empty segments); `n_folds = 0` fails with the `ZeroDivisionError` from fold
generation and `n_folds < 0` with the `ValueError` from aggregating an
empty loss list — neither a dedicated configuration or data error. -/
theorem c3_amended_no_validation (v : TCValidator)
    (M : List (String × (List ℚ → List ℚ → ℚ))) (params : PDict)
    (f : List ℚ → List ℚ → ℚ) (lb : ℤ)
    (h1 : dget M v.loss = some f) (h2 : dget params "lookback" = some (PVal.int lb)) :
    (1 ≤ v.n_folds → ∃ s, evaluate v M params = Except.ok s) ∧
    (v.n_folds = 0 → evaluate v M params = Except.error PyError.zeroDivisionError) ∧
    (v.n_folds < 0 → evaluate v M params = Except.error PyError.valueError) := by
  refine ⟨?_, ?_, ?_⟩
  · intro hn
    obtain ⟨folds, hgf, hlen⟩ :=
      generateFolds_ok_of_ne v.data v.train_frac v.n_folds lb (by omega)
    have hlen1 : 1 ≤ v.n_folds.toNat := by omega
    cases folds with
    | nil =>
      exfalso
      rw [List.length_nil] at hlen
      omega
    | cons f0 fs =>
      simp only [evaluate, h1, h2, hgf]
      exact ⟨_, rfl⟩
  · intro hz
    simp only [evaluate, h1, h2]
    rw [generateFolds, if_pos hz]
  · intro hneg
    obtain ⟨folds, hgf, hlen⟩ :=
      generateFolds_ok_of_ne v.data v.train_frac v.n_folds lb (by omega)
    have hlen0 : v.n_folds.toNat = 0 := by omega
    cases folds with
    | cons f0 fs => rw [hlen0] at hlen; simp at hlen
    | nil =>
      simp only [evaluate, h1, h2, hgf]
      rfl

/-- C3 amended witness: a concrete evaluation with `n_folds = 2`. -/
theorem c3_amended_no_validation_witness :
    ∃ s, evaluate demoCV demoMetrics demoParams = Except.ok s :=
  (c3_amended_no_validation demoCV demoMetrics demoParams (fun _ _ => 3 / 7) 1
    rfl (by decide)).1 (by decide)

/-!  ### C9: evaluate is stateless and deterministic  -/

/-- C9: `evaluate` leaves the validator object unchanged (the source
assigns no attribute of `self`), so a second call on the post-call state
with the same arguments returns the same aggregate statistics: no state is
cached or carried over between calls. -/
theorem c9_evaluate_idempotent (v : TCValidator)
    (M : List (String × (List ℚ → List ℚ → ℚ))) (params : PDict)
    (h : exOk (evaluateSt v M params) = true) :
    ∃ s, evaluateSt v M params = Except.ok (s, v) ∧
      ((evaluateSt v M params).bind fun r => evaluateSt r.2 M params) =
        Except.ok (s, v) := by
  cases he : evaluate v M params with
  | error err =>
    rw [evaluateSt, he] at h
    simp [Except.map, exOk] at h
  | ok s =>
    have hst : evaluateSt v M params = Except.ok (s, v) := by
      rw [evaluateSt, he]
      rfl
    refine ⟨s, hst, ?_⟩
    rw [hst]
    exact hst

/-- C9 witness: two consecutive evaluations of the demo validator. -/
theorem c9_evaluate_idempotent_witness :
    ∃ s, evaluateSt demoCV demoMetrics demoParams = Except.ok (s, demoCV) ∧
      ((evaluateSt demoCV demoMetrics demoParams).bind
        fun r => evaluateSt r.2 demoMetrics demoParams) = Except.ok (s, demoCV) :=
  c9_evaluate_idempotent demoCV demoMetrics demoParams (by decide)

end Deep4Cast
